import Mathlib

/-!
Verification of the edge-ai-hackathon repository specification.

Part 1 embeds the TypeScript string formatters from
`src/src/utils/formatters.ts`.  Part 2 (below) embeds the streaming
feature-scoring backend (session window, metric extractor, protocol
handler); the backend Python modules themselves are not present in the
repository snapshot (only their READMEs and protocol documentation), so
those definitions are modelled from the specification text.
-/

namespace EdgeCoach

/-- From src/src/utils/formatters.ts (formatDuration): minutes; the two
local bindings `hours = Math.floor(minutes / 60)` and
`remainingMinutes = minutes % 60` of the source are inlined. -/
def formatDuration (minutes : Nat) : String :=
  if minutes = 0 then "0min"
  else if minutes < 60 then toString minutes ++ "min"
  else if 0 < minutes % 60 then
    toString (minutes / 60) ++ "h " ++ toString (minutes % 60) ++ "min"
  else toString (minutes / 60) ++ "h"

/-- Model of ECMAScript String.prototype.trim on the character list of a
JavaScript string: remove leading and trailing whitespace. -/
def jsTrim (s : List Char) : List Char :=
  ((s.dropWhile Char.isWhitespace).reverse.dropWhile Char.isWhitespace).reverse

/-- The fallback title used by formatSessionTitle. -/
def defaultSessionTitle : List Char := "Sessão sem título".data

/-- From src/src/utils/formatters.ts (formatSessionTitle):
`title.trim() || defaultTitle` — the default is returned exactly when the
trimmed string is empty, the only falsy string. -/
def formatSessionTitle (title : List Char) : List Char :=
  let t := jsTrim title
  if t = [] then defaultSessionTitle else t

lemma dropWhile_all_iff (p : Char → Bool) (s : List Char) :
    (∀ c ∈ s.dropWhile p, p c) ↔ (∀ c ∈ s, p c) := by
  induction s with
  | nil => simp
  | cons a t ih =>
    by_cases h : p a
    · simp [List.dropWhile_cons, h, ih]
    · simp [List.dropWhile_cons, h]

lemma jsTrim_eq_nil_iff (s : List Char) :
    jsTrim s = [] ↔ s.all Char.isWhitespace = true := by
  unfold jsTrim
  rw [List.reverse_eq_nil_iff, List.dropWhile_eq_nil_iff]
  constructor
  · intro h
    rw [List.all_eq_true]
    rw [← dropWhile_all_iff Char.isWhitespace s]
    intro c hc
    exact h c (List.mem_reverse.mpr hc)
  · intro h c hc
    rw [List.all_eq_true] at h
    exact h c ((List.dropWhile_sublist _).mem (List.mem_reverse.mp hc))

/-- Claim C9: formatSessionTitle returns the trimmed title whenever the
trimmed result is non-empty, falls back to the fixed default title exactly
for inputs consisting only of whitespace (including the empty string), and
never returns an input that is not already trimmed. -/
theorem formatSessionTitle_spec (s : List Char) :
    (s.all Char.isWhitespace = true → formatSessionTitle s = defaultSessionTitle) ∧
    (s.all Char.isWhitespace = false →
      formatSessionTitle s = jsTrim s ∧ jsTrim s ≠ []) ∧
    (formatSessionTitle s = s → jsTrim s = s) := by
  refine ⟨fun h => ?_, fun h => ?_, fun h => ?_⟩
  · have hnil : jsTrim s = [] := (jsTrim_eq_nil_iff s).mpr h
    simp [formatSessionTitle, hnil]
  · have hnil : jsTrim s ≠ [] := by
      intro hn
      rw [(jsTrim_eq_nil_iff s).mp hn] at h
      exact Bool.noConfusion h
    exact ⟨by simp [formatSessionTitle, hnil], hnil⟩
  · by_cases hnil : jsTrim s = []
    · rw [formatSessionTitle, hnil] at h
      simp only [if_pos rfl] at h
      rw [← h] at hnil
      exact absurd hnil (by decide)
    · rw [formatSessionTitle] at h
      simp only [if_neg hnil] at h
      rw [h]

/-- Witness for C9 at a concrete input with surrounding whitespace. -/
theorem formatSessionTitle_spec_witness :
    formatSessionTitle "  ab ".data = jsTrim "  ab ".data ∧ jsTrim "  ab ".data ≠ [] :=
  (formatSessionTitle_spec "  ab ".data).2.1 (by decide)

/-- Claim C10: formatDuration returns "0min" at zero, the bare minute count
with suffix "min" below one hour, hours plus leftover minutes when the
minutes do not divide evenly into hours, and just hours when they do. -/
theorem formatDuration_spec (m : Nat) :
    (m = 0 → formatDuration m = "0min") ∧
    (0 < m → m < 60 → formatDuration m = toString m ++ "min") ∧
    (60 ≤ m → 0 < m % 60 →
      formatDuration m = toString (m / 60) ++ "h " ++ toString (m % 60) ++ "min") ∧
    (60 ≤ m → m % 60 = 0 → formatDuration m = toString (m / 60) ++ "h") := by
  refine ⟨fun h0 => ?_, fun h1 h2 => ?_, fun h1 h2 => ?_, fun h1 h2 => ?_⟩
  · simp [formatDuration, h0]
  · have hne : ¬ m = 0 := by omega
    simp [formatDuration, hne, h2]
  · have hne : ¬ m = 0 := by omega
    have hge : ¬ m < 60 := by omega
    simp [formatDuration, hne, hge, h2]
  · have hne : ¬ m = 0 := by omega
    have hge : ¬ m < 60 := by omega
    have hz : ¬ 0 < m % 60 := by omega
    simp [formatDuration, hne, hge, hz]

/-- Witness for C10 at 61 minutes (one hour and one minute). -/
theorem formatDuration_spec_witness :
    formatDuration 61 = toString (61 / 60) ++ "h " ++ toString (61 % 60) ++ "min" :=
  (formatDuration_spec 61).2.2.1 (by decide) (by decide)

/-!
Part 2: the real-time feature-scoring backend.  The Python modules
(websocket server, core processing) are not in the repository snapshot —
only their READMEs — so the definitions below are modelled from the
specification (sections 3, 4.2, 4.3, 4.5 and the nervousness formula
reproduced in the backend README).  Real-valued signals are embedded as
real numbers.
-/

/-- Modelled from the spec: a FrameObservation (section 3) — the
normalized landmark view of one frame produced by the Landmark Adapter
from the detector output; joints are normalized 3-D coordinates, with
explicit not-detected states. -/
structure FrameObservation where
  frame_number : ℕ
  timestamp : ℝ
  pose_joints : Option (List (ℝ × ℝ × ℝ))
  hand_joints : List (List (ℝ × ℝ × ℝ))
  face_joints : Option (List (ℝ × ℝ × ℝ))
  pose_detected : Bool
  hands_detected_count : ℕ
  face_detected : Bool

/-- Centroid of a list of normalized 3-D joints (componentwise mean). -/
noncomputable def centroid (pts : List (ℝ × ℝ × ℝ)) : ℝ × ℝ × ℝ :=
  ((pts.map (fun p => p.1)).sum / pts.length,
   (pts.map (fun p => p.2.1)).sum / pts.length,
   (pts.map (fun p => p.2.2)).sum / pts.length)

/-- Euclidean distance between two normalized 3-D points. -/
noncomputable def eDist (a b : ℝ × ℝ × ℝ) : ℝ :=
  Real.sqrt ((a.1 - b.1) ^ 2 + (a.2.1 - b.2.1) ^ 2 + (a.2.2 - b.2.2) ^ 2)

/-- Modelled from the spec (section 4.2): hand movement — for each detected
hand, the displacement of its joint centroid against the previous frame
(hands paired by index); the mean over detected hands, or 0 when no hands
are detected or there is no previous frame. -/
noncomputable def hand_movement (prev : Option FrameObservation)
    (cur : FrameObservation) : ℝ :=
  match prev with
  | none => 0
  | some p =>
    let ds := (cur.hand_joints.zip p.hand_joints).map
      (fun hp => eDist (centroid hp.1) (centroid hp.2))
    if ds.length = 0 then 0 else ds.sum / ds.length

/-- Modelled from the spec (section 4.2): head movement — displacement of a
single reference pose landmark (the first pose joint, the nose) between
the previous and current frame; 0 when unavailable. -/
noncomputable def head_movement (prev : Option FrameObservation)
    (cur : FrameObservation) : ℝ :=
  match prev with
  | none => 0
  | some p =>
    match cur.pose_joints, p.pose_joints with
    | some (c :: _), some (q :: _) => eDist c q
    | _, _ => 0

/-- Modelled from the spec (section 4.2): an eye-aspect-ratio-like openness
value from the face landmarks (ratio of vertical eye distances to the
horizontal one at representative landmark indices, which the spec leaves
unspecified); 0 when no face is detected. -/
noncomputable def avg_ear (cur : FrameObservation) : ℝ :=
  match cur.face_joints with
  | none => 0
  | some fj =>
    let g := fun i => fj.getD i (0, 0, 0)
    (eDist (g 1) (g 5) + eDist (g 2) (g 4)) / (2 * eDist (g 0) (g 3))

/-- Modelled from the spec: the configurable EAR threshold (default tuned
between open eyes at about 0.3 and closed eyes at about 0.1). -/
noncomputable def EAR_THRESHOLD : ℝ := 1 / 5

/-- Modelled from the spec (section 3): the per-frame metrics the Metric
Extractor derives from the current and previous observation, before the
Session Window attaches the nervousness score; the window-level blink-rate
fraction is reported from the window itself at response time. -/
structure RawMetrics where
  frame_number : ℕ
  timestamp : ℝ
  blink_detected : Bool
  avg_ear : ℝ
  hand_movement : ℝ
  head_movement : ℝ
  hands_detected : ℕ
  face_detected : Bool

/-- Modelled from the spec (section 4.2): the Metric Extractor — a pure
total function of the previous (optional) and current observation; a
missing previous observation is not an error and yields zero movement. -/
noncomputable def extract_metrics (prev : Option FrameObservation)
    (cur : FrameObservation) : RawMetrics :=
  { frame_number := cur.frame_number
    timestamp := cur.timestamp
    blink_detected :=
      cur.face_joints.isSome && (if avg_ear cur < EAR_THRESHOLD then true else false)
    avg_ear := avg_ear cur
    hand_movement := hand_movement prev cur
    head_movement := head_movement prev cur
    hands_detected := cur.hands_detected_count
    face_detected := cur.face_detected }

/-- Claim C5: on the first frame of a fresh session (no previous
observation) the Metric Extractor reports zero hand and head movement
regardless of the landmark content, while the detection counts are passed
through and the blink state is the same valid one computed from the current
frame alone; the extractor is a total function, so this is no error. -/
theorem first_frame_neutral (cur : FrameObservation) :
    (extract_metrics none cur).hand_movement = 0 ∧
    (extract_metrics none cur).head_movement = 0 ∧
    (extract_metrics none cur).hands_detected = cur.hands_detected_count ∧
    (extract_metrics none cur).face_detected = cur.face_detected ∧
    (extract_metrics none cur).blink_detected =
      (cur.face_joints.isSome &&
        (if avg_ear cur < EAR_THRESHOLD then true else false)) ∧
    (extract_metrics none cur).avg_ear = avg_ear cur :=
  ⟨rfl, rfl, rfl, rfl, rfl, rfl⟩

/-- Modelled from the spec (section 3): a FrameMetrics record as stored in
the Session Window — the extracted raw metrics together with the
nervousness score attached on append; never mutated afterwards. -/
structure FrameMetrics where
  frame_number : ℕ
  timestamp : ℝ
  nervousness_score : ℝ
  blink_detected : Bool
  avg_ear : ℝ
  hand_movement : ℝ
  head_movement : ℝ
  hands_detected : ℕ
  face_detected : Bool

/-- Modelled from the spec (section 4.3): the per-session bounded rolling
window of FrameMetrics, with the incrementally maintained running count of
blink frames (adjusted on push and evict, not by rescanning). -/
structure SessionWindow where
  capacity : ℕ
  frames : List FrameMetrics
  blinkCount : ℕ

/-- Contribution of one frame to the running blink count. -/
def blinkInc (m : FrameMetrics) : ℕ := if m.blink_detected then 1 else 0

/-- Modelled from the spec (section 4.3): append — push the new
FrameMetrics and, if the length would exceed the capacity, evict the
oldest entry (FIFO), adjusting the running blink count on both. -/
def pushFrame (w : SessionWindow) (m : FrameMetrics) : SessionWindow :=
  if w.frames.length + 1 ≤ w.capacity then
    ⟨w.capacity, w.frames ++ [m], w.blinkCount + blinkInc m⟩
  else
    ⟨w.capacity, (w.frames ++ [m]).tail,
      w.blinkCount + blinkInc m - blinkInc ((w.frames ++ [m]).headD m)⟩

/-- A fresh empty window with capacity W. -/
def emptyWindow (W : ℕ) : SessionWindow := ⟨W, [], 0⟩

/-- Appending a whole sequence of FrameMetrics, oldest first. -/
def pushAll (w : SessionWindow) (ms : List FrameMetrics) : SessionWindow :=
  ms.foldl pushFrame w

/-- Modelled from the spec (section 4.3): the blink rate over the window —
the fraction of window entries with a detected blink, served from the
running count; 0 on an empty window. -/
noncomputable def blink_rate (w : SessionWindow) : ℝ :=
  if w.frames.length = 0 then 0 else (w.blinkCount : ℝ) / (w.frames.length : ℝ)

/-- Clamp a value into the interval from lo to hi. -/
noncomputable def clamp (x lo hi : ℝ) : ℝ := max lo (min x hi)

/-- Modelled from the spec (section 4.3) and the nervousness formula
reproduced in the backend README: normalize the blink rate per minute
against the calm baseline, weight the movement signals, average the three
terms and clamp the result into the unit interval. -/
noncomputable def nervousness_score (brpm hand head : ℝ) : ℝ :=
  clamp (((brpm - 12) / 20 + hand * 10 + head * 5) / 3) 0 1

/-- Modelled from the spec (section 4.3): appending an extracted
RawMetrics record to the window — the window owns the score formula and
attaches the nervousness score on append; `brpm` is the session's current
blink rate per minute (the spec fixes no frame-rate constant for the
per-minute conversion, so it is a parameter here).  Returns the new window
and the stored FrameMetrics. -/
noncomputable def appendScored (w : SessionWindow) (r : RawMetrics)
    (brpm : ℝ) : SessionWindow × FrameMetrics :=
  let m : FrameMetrics :=
    { frame_number := r.frame_number
      timestamp := r.timestamp
      nervousness_score := nervousness_score brpm r.hand_movement r.head_movement
      blink_detected := r.blink_detected
      avg_ear := r.avg_ear
      hand_movement := r.hand_movement
      head_movement := r.head_movement
      hands_detected := r.hands_detected
      face_detected := r.face_detected }
  (pushFrame w m, m)

/-- The window invariant: the length is bounded by the capacity and the
running blink count agrees with a rescan of the stored frames. -/
def WindowInv (w : SessionWindow) : Prop :=
  w.frames.length ≤ w.capacity ∧
  w.blinkCount = w.frames.countP (fun m => m.blink_detected)

lemma pushFrame_capacity (w : SessionWindow) (m : FrameMetrics) :
    (pushFrame w m).capacity = w.capacity := by
  unfold pushFrame
  split <;> rfl

lemma pushFrame_frames (w : SessionWindow) (m : FrameMetrics)
    (h : w.frames.length ≤ w.capacity) :
    (pushFrame w m).frames
      = (w.frames ++ [m]).drop (w.frames.length + 1 - w.capacity) := by
  unfold pushFrame
  by_cases hc : w.frames.length + 1 ≤ w.capacity
  · rw [if_pos hc]
    have h0 : w.frames.length + 1 - w.capacity = 0 := by omega
    rw [h0, List.drop_zero]
  · rw [if_neg hc]
    have h1 : w.frames.length + 1 - w.capacity = 1 := by omega
    rw [h1, List.drop_one]

lemma pushFrame_inv (w : SessionWindow) (m : FrameMetrics)
    (h : WindowInv w) : WindowInv (pushFrame w m) := by
  obtain ⟨hlen, hcount⟩ := h
  unfold WindowInv pushFrame
  by_cases hc : w.frames.length + 1 ≤ w.capacity
  · rw [if_pos hc]
    refine ⟨by simpa using hc, ?_⟩
    simp [hcount, List.countP_append, List.countP_cons, blinkInc]
  · rw [if_neg hc]
    rcases hf : w.frames with _ | ⟨e, rest⟩
    · rw [hf] at hcount
      simp at hcount
      simp [blinkInc, hcount]
    · rw [hf] at hlen hcount
      rw [List.countP_cons] at hcount
      constructor
      · simp only [List.cons_append, List.tail_cons, List.length_append,
          List.length_cons, List.length_nil]
        simp only [List.length_cons] at hlen
        omega
      · simp only [List.cons_append, List.tail_cons, List.headD_cons,
          List.countP_append, List.countP_cons, List.countP_nil, blinkInc]
        by_cases he : e.blink_detected <;> by_cases hm : m.blink_detected <;>
          simp [he, hm, hcount]

lemma pushAll_inv (ms : List FrameMetrics) (w : SessionWindow)
    (h : WindowInv w) : WindowInv (pushAll w ms) := by
  induction ms generalizing w with
  | nil => exact h
  | cons m rest ih => exact ih (pushFrame w m) (pushFrame_inv w m h)

lemma pushAll_capacity (ms : List FrameMetrics) (w : SessionWindow) :
    (pushAll w ms).capacity = w.capacity := by
  induction ms generalizing w with
  | nil => rfl
  | cons m rest ih =>
    rw [show pushAll w (m :: rest) = pushAll (pushFrame w m) rest from rfl,
      ih (pushFrame w m), pushFrame_capacity]

lemma pushAll_frames (ms : List FrameMetrics) (w : SessionWindow)
    (h : WindowInv w) :
    (pushAll w ms).frames
      = (w.frames ++ ms).drop (w.frames.length + ms.length - w.capacity) := by
  induction ms generalizing w with
  | nil =>
    have h0 : w.frames.length + 0 - w.capacity = 0 := by
      have := h.1; omega
    simp only [pushAll, List.foldl_nil, List.append_nil, List.length_nil, h0,
      List.drop_zero]
  | cons m rest ih =>
    have h' := pushFrame_inv w m h
    rw [show pushAll w (m :: rest) = pushAll (pushFrame w m) rest from rfl,
      ih (pushFrame w m) h']
    rw [pushFrame_capacity, pushFrame_frames w m h.1]
    have hk : w.frames.length + 1 - w.capacity ≤ (w.frames ++ [m]).length := by
      simp only [List.length_append, List.length_cons, List.length_nil]
      omega
    rw [List.length_drop]
    rw [← List.drop_append_of_le_length hk, List.drop_drop]
    have harith :
        w.frames.length + 1 - w.capacity
          + ((w.frames ++ [m]).length - (w.frames.length + 1 - w.capacity)
              + rest.length - w.capacity)
        = w.frames.length + (m :: rest).length - w.capacity := by
      simp only [List.length_append, List.length_cons, List.length_nil]
      have := h.1
      omega
    rw [harith]
    congr 1
    simp

lemma emptyWindow_inv (W : ℕ) : WindowInv (emptyWindow W) :=
  ⟨by simp [emptyWindow], by simp [emptyWindow]⟩

lemma pushAll_empty_frames (W : ℕ) (ms : List FrameMetrics) :
    (pushAll (emptyWindow W) ms).frames = ms.drop (ms.length - W) := by
  have hfr := pushAll_frames ms (emptyWindow W) (emptyWindow_inv W)
  simpa [emptyWindow] using hfr

/-- Claim C2: the window length never exceeds the capacity W — both along
any sequence of appends from a fresh window and stepwise from any bounded
state — and after appending more than W FrameMetrics to a fresh window the
length is exactly W and the window holds exactly the W most recently
appended entries in arrival order, the oldest having been evicted. -/
theorem window_bound (W : ℕ) (ms : List FrameMetrics) :
    (pushAll (emptyWindow W) ms).frames.length ≤ W ∧
    (∀ w m, w.frames.length ≤ w.capacity →
      (pushFrame w m).frames.length ≤ w.capacity) ∧
    (W < ms.length →
      (pushAll (emptyWindow W) ms).frames.length = W ∧
      (pushAll (emptyWindow W) ms).frames = ms.drop (ms.length - W)) := by
  have hfr := pushAll_empty_frames W ms
  have hlen : (pushAll (emptyWindow W) ms).frames.length
      = ms.length - (ms.length - W) := by
    rw [hfr, List.length_drop]
  refine ⟨?_, ?_, ?_⟩
  · rw [hlen]; omega
  · intro w m hw
    rw [pushFrame_frames w m hw, List.length_drop]
    simp only [List.length_append, List.length_cons, List.length_nil]
    omega
  · intro hN
    refine ⟨?_, hfr⟩
    rw [hlen]; omega

/-- A concrete FrameMetrics sample used by the window witnesses. -/
def mkFrame (n : ℕ) (b : Bool) : FrameMetrics :=
  { frame_number := n
    timestamp := 0
    nervousness_score := 0
    blink_detected := b
    avg_ear := 0
    hand_movement := 0
    head_movement := 0
    hands_detected := 0
    face_detected := false }

/-- Witness for C2: appending three frames to a fresh window of capacity
two keeps the two most recent entries. -/
theorem window_bound_witness :
    (pushAll (emptyWindow 2) [mkFrame 0 false, mkFrame 1 true, mkFrame 2 false]).frames
      = [mkFrame 0 false, mkFrame 1 true, mkFrame 2 false].drop
          ([mkFrame 0 false, mkFrame 1 true, mkFrame 2 false].length - 2) :=
  ((window_bound 2 [mkFrame 0 false, mkFrame 1 true, mkFrame 2 false]).2.2
    (by decide)).2

/-- Claim C3: on every window state reachable by appends from a fresh
window, the reported blink rate is exactly the number K of entries of the
current window with a detected blink divided by the window length — a
fraction of the window contents, not of any total frame counter (the
window does not even carry one). -/
theorem blink_rate_is_window_fraction (W : ℕ) (ms : List FrameMetrics) :
    blink_rate (pushAll (emptyWindow W) ms)
      = ((pushAll (emptyWindow W) ms).frames.countP
            (fun m => m.blink_detected) : ℝ)
        / ((pushAll (emptyWindow W) ms).frames.length : ℝ) := by
  have hinv := pushAll_inv ms (emptyWindow W) (emptyWindow_inv W)
  obtain ⟨hlen, hcount⟩ := hinv
  unfold blink_rate
  by_cases h0 : (pushAll (emptyWindow W) ms).frames.length = 0
  · rw [if_pos h0]
    rw [List.length_eq_zero] at h0
    rw [h0]
    simp
  · rw [if_neg h0, hcount]

/-- Claim C1: the nervousness score attached to the FrameMetrics stored on
append equals the clamped mean of the three normalized terms — blink term
(blink rate per minute minus 12, over 20), hand term (hand movement times
10) and head term (head movement times 5) — and therefore lies in the unit
interval for inputs of arbitrary magnitude. -/
theorem nervousness_clamped (w : SessionWindow) (r : RawMetrics) (brpm : ℝ) :
    (appendScored w r brpm).2.nervousness_score
      = clamp (((brpm - 12) / 20 + r.hand_movement * 10 + r.head_movement * 5) / 3)
          0 1 ∧
    0 ≤ (appendScored w r brpm).2.nervousness_score ∧
    (appendScored w r brpm).2.nervousness_score ≤ 1 := by
  refine ⟨rfl, ?_, ?_⟩
  · show (0 : ℝ) ≤ clamp _ 0 1
    unfold clamp
    exact le_max_left 0 _
  · show clamp _ (0 : ℝ) 1 ≤ 1
    unfold clamp
    exact max_le (by norm_num) (min_le_right _ 1)

/-- Modelled from the spec (section 3): a Session — identity, creation
time, the monotonic count of successfully processed video frames, the
previous observation (overwritten each frame) and the rolling window. -/
structure Session where
  session_id : ℕ
  created_at : ℝ
  frame_count : ℕ
  previous_observation : Option FrameObservation
  window : SessionWindow

/-- Modelled from the spec (section 4.4): reset — clears window content,
frame count and previous observation but keeps the session identity,
creation time and the configured window capacity. -/
def reset_session (s : Session) : Session :=
  { s with
    frame_count := 0
    previous_observation := none
    window := { s.window with frames := [], blinkCount := 0 } }

/-- Claim C6: reset_session is idempotent — applying it twice yields
exactly the state of applying it once — and after a reset the frame count
is zero, the window is empty, the previous observation is cleared, and
the session identity and creation time are unchanged. -/
theorem reset_idempotent (s : Session) :
    reset_session (reset_session s) = reset_session s ∧
    (reset_session s).frame_count = 0 ∧
    (reset_session s).window.frames = [] ∧
    (reset_session s).previous_observation = none ∧
    (reset_session s).session_id = s.session_id ∧
    (reset_session s).created_at = s.created_at :=
  ⟨rfl, rfl, rfl, rfl, rfl, rfl⟩

/-- Modelled from the spec (section 3): the derived SessionStats. -/
structure SessionStats where
  total_frames : ℕ
  session_duration : ℝ
  avg_nervousness : ℝ
  avg_blink_rate : ℝ
  avg_hand_movement : ℝ

/-- Mean of a per-frame field over the current window; 0 on an empty
window, so the aggregates are total with no division by zero. -/
noncomputable def windowAvg (f : FrameMetrics → ℝ) (w : SessionWindow) : ℝ :=
  if w.frames.length = 0 then 0
  else ((w.frames.map f).sum) / (w.frames.length : ℝ)

/-- Modelled from the spec (sections 3, 4.3): get_stats — the aggregates
are computed over the current window only; the duration is the time since
creation and the total frame count is the session counter. -/
noncomputable def get_stats (s : Session) (now : ℝ) : SessionStats :=
  { total_frames := s.frame_count
    session_duration := now - s.created_at
    avg_nervousness := windowAvg (fun m => m.nervousness_score) s.window
    avg_blink_rate := blink_rate s.window
    avg_hand_movement := windowAvg (fun m => m.hand_movement) s.window }

/-- A freshly created session: zero frames, no history, empty window. -/
def freshSession (sid : ℕ) (t : ℝ) (W : ℕ) : Session :=
  { session_id := sid
    created_at := t
    frame_count := 0
    previous_observation := none
    window := emptyWindow W }

/-- Claim C7: get_stats on a fresh session with an empty window is a total
computation (the window averages guard the empty case, so there is no
division-by-zero failure) and returns zero total frames, zero session
duration at the creation instant, and zero aggregate averages — all
aggregates being read from the current (empty) window only. -/
theorem get_stats_fresh (sid : ℕ) (t : ℝ) (W : ℕ) :
    get_stats (freshSession sid t W) t =
      { total_frames := 0
        session_duration := 0
        avg_nervousness := 0
        avg_blink_rate := 0
        avg_hand_movement := 0 } := by
  simp [get_stats, freshSession, emptyWindow, windowAvg, blink_rate]

/-- Modelled from the spec (section 6): the inbound wire messages.  A
video_frame carries the decoded observation, or none when the base64 image
payload cannot be decoded (a DecodeError); `malformed` stands for a
protocol-level violation (malformed envelope or unknown type beyond
tolerance). -/
inductive ClientMessage where
  | video_frame (frame : Option FrameObservation) (timestamp : ℝ)
  | get_stats
  | reset_session
  | ping
  | malformed

/-- Modelled from the spec (section 6): the outbound wire messages. -/
inductive ServerMessage where
  | features (data : FrameMetrics) (blinkRate : ℝ) (timestamp : ℝ)
  | stats (data : SessionStats) (timestamp : ℝ)
  | error (message : String)
  | ack
  | pong

/-- One step of the per-connection handler: either reply with exactly one
message and continue with the new session state, or close the connection
with a reason. -/
inductive StepResult where
  | reply (s : Session) (msg : ServerMessage)
  | close (s : Session) (reason : String)

/-- Modelled from the spec (sections 4.5, 7): the Streaming Protocol
Handler dispatch.  An undecodable frame payload is reported as a single
error message and touches no session state; a decoded frame is extracted,
scored, appended to the window, advances the frame counter and overwrites
the previous observation; get_stats and ping are read-only; reset_session
clears the session; only a protocol-level violation closes the
connection. -/
noncomputable def handleMessage (s : Session) (msg : ClientMessage)
    (now : ℝ) : StepResult :=
  match msg with
  | .video_frame none _ => .reply s (.error "Invalid frame data")
  | .video_frame (some obs) ts =>
    let r := extract_metrics s.previous_observation obs
    let wm := appendScored s.window r (blink_rate s.window * 60)
    let s2 : Session :=
      { s with
        frame_count := s.frame_count + 1
        previous_observation := some obs
        window := wm.1 }
    .reply s2 (.features wm.2 (blink_rate wm.1) ts)
  | .get_stats => .reply s (.stats (get_stats s now) now)
  | .reset_session => .reply (reset_session s) .ack
  | .ping => .reply s .pong
  | .malformed => .close s "protocol error: malformed envelope"

/-- Claim C4: a video_frame whose payload cannot be decoded produces
exactly one error reply whose carried state is the unchanged session —
frame count and window untouched — and the connection stays open (a reply,
not a close); a subsequent well-formed video_frame on the same connection
is then processed normally: a features reply with the frame count
advanced by one and the observation recorded. -/
theorem malformed_frame_isolated (s : Session) (ts ts2 now now2 : ℝ)
    (obs : FrameObservation) :
    handleMessage s (.video_frame none ts) now
      = .reply s (.error "Invalid frame data") ∧
    (∃ s2 m br,
      handleMessage s (.video_frame (some obs) ts2) now2
        = .reply s2 (.features m br ts2) ∧
      s2.frame_count = s.frame_count + 1 ∧
      s2.previous_observation = some obs) := by
  exact ⟨rfl, _, _, _, rfl, rfl, rfl⟩

/-- Claim C8: the handler answers every inbound message on an open
connection — dispatch always yields either a reply carrying exactly one
server message or a close carrying a reason string; no message is left
without a response. -/
theorem request_always_answered (s : Session) (msg : ClientMessage)
    (now : ℝ) :
    (∃ s2 resp, handleMessage s msg now = .reply s2 resp) ∨
    (∃ s2 reason, handleMessage s msg now = .close s2 reason) := by
  cases msg with
  | video_frame fr ts =>
    cases fr with
    | none => exact Or.inl ⟨_, _, rfl⟩
    | some obs => exact Or.inl ⟨_, _, rfl⟩
  | get_stats => exact Or.inl ⟨_, _, rfl⟩
  | reset_session => exact Or.inl ⟨_, _, rfl⟩
  | ping => exact Or.inl ⟨_, _, rfl⟩
  | malformed => exact Or.inr ⟨_, _, rfl⟩

end EdgeCoach
